import Mathlib

/-!
Shallow embedding of `src/metrics/more_losses.py` (the `WAPE` / `BIAS`
ratio-metric engine built on the narwhals dataframe algebra), together with
theorems settling the specification claims.

Numeric cells are modelled by exact rationals; a cell is either the engine's
null marker, a float NaN, a number, or a string (group-key values such as
series identifiers).  The dataframe operations used by the source
(`select` of conditional expressions, `group_by(...).agg(all().sum())`,
elementwise division, `sort`) are embedded as explicit list computations.
-/

namespace MoreLosses

/-- A dataframe cell: the engine's null marker, a float NaN, a numeric value
(modelled exactly by a rational), or a string (used by identifier columns). -/
inductive Val where
  | null : Val
  | nan : Val
  | num : ℚ → Val
  | str : String → Val
deriving DecidableEq, Repr

/-- Elementwise subtraction, as in the expression
`nw.col(target_col) - nw.col(model)`: a null operand propagates null, a NaN
operand propagates NaN.  The metrics pipeline never subtracts strings (the
engine would reject that), so the final catch-all is unreachable there. -/
def valSub : Val → Val → Val
  | .num a, .num b => .num (a - b)
  | .null, _ => .null
  | _, .null => .null
  | _, _ => .nan

/-- Elementwise absolute value, as in `error.abs()`; null and NaN pass
through. -/
def valAbs : Val → Val
  | .num a => .num |a|
  | v => v

/-- One summation step: a null cell is skipped (contributes nothing), a NaN
cell poisons the running sum, a numeric cell is added.  String cells never
reach a sum in this pipeline. -/
def valAdd : Val → Val → Val
  | .null, s => s
  | .str _, s => s
  | .nan, _ => .nan
  | .num a, .num b => .num (a + b)
  | .num _, _ => .nan

/-- The group sum `agg(nw.all().sum())`: null cells are skipped, a NaN cell
poisons the sum, and the sum of an empty or all-null group is `0` (the
engine's additive identity for `sum`). -/
def valSum : List Val → Val
  | [] => .num 0
  | v :: vs => valAdd v (valSum vs)

/-- Source function `_zero_to_nan`: `nw.when(series == 0).then(float("nan")).otherwise(series)`.
An exactly-zero value becomes NaN; everything else is unchanged. -/
def _zero_to_nan (v : Val) : Val :=
  if v = Val.num 0 then Val.nan else v

/-- Elementwise division of the aggregated numerator by the (zero-guarded)
aggregated denominator: null propagates, NaN propagates.  A numeric zero
divisor never occurs after `_zero_to_nan`, so the `a / b` branch is only
ever taken with `b ≠ 0`. -/
def valDiv : Val → Val → Val
  | .num a, .num b => .num (a / b)
  | .null, _ => .null
  | _, .null => .null
  | _, _ => .nan

/-- An input dataframe: a column schema and rows.  A row assigns a cell to
every column name; only the names in `columns` are meaningful. -/
structure DFrame where
  columns : List String
  rows : List (String → Val)

/-- Source function `_get_group_cols` (fallback definition): the group key is
`[cutoff_col, id_col]` when `cutoff_col` is among the dataframe's columns,
else `[id_col]`.  Pure function of the schema. -/
def _get_group_cols (df : DFrame) (id_col cutoff_col : String) : List String :=
  if cutoff_col ∈ df.columns then [cutoff_col, id_col] else [id_col]

/-- The group-key tuple of a row: the row's cells at the grouping columns. -/
def keyOf (group_cols : List String) (r : String → Val) : List Val :=
  group_cols.map r

/-- The numerator expression for one model:
`nw.when(~col(model).is_null()).then(error).otherwise(None)` with
`error = col(target) - col(model)`, made absolute in WAPE mode. -/
def numExpr (target_col model : String) (absolute_error : Bool)
    (r : String → Val) : Val :=
  if r model = Val.null then Val.null
  else
    let error := valSub (r target_col) (r model)
    if absolute_error then valAbs error else error

/-- The denominator expression for one model:
`nw.when(~col(model).is_null()).then(col(target)).otherwise(None)`. -/
def denExpr (target_col model : String) (r : String → Val) : Val :=
  if r model = Val.null then Val.null else r target_col

/-- Aggregated numerator for one model over one group: the group-by sum of
the masked per-row errors of the rows whose key equals `k`. -/
def numSum (df : DFrame) (group_cols : List String) (target_col model : String)
    (absolute_error : Bool) (k : List Val) : Val :=
  valSum ((df.rows.filter (fun r => keyOf group_cols r = k)).map
    (numExpr target_col model absolute_error))

/-- Aggregated denominator for one model over one group: the group-by sum of
the masked actuals of the rows whose key equals `k`. -/
def denSum (df : DFrame) (group_cols : List String) (target_col model : String)
    (k : List Val) : Val :=
  valSum ((df.rows.filter (fun r => keyOf group_cols r = k)).map
    (denExpr target_col model))

/-- One output cell: aggregated numerator divided by the zero-guarded
aggregated denominator, `col(num) / _zero_to_nan(col(den))`. -/
def cellFor (df : DFrame) (group_cols : List String)
    (target_col model : String) (absolute_error : Bool) (k : List Val) : Val :=
  valDiv (numSum df group_cols target_col model absolute_error k)
    (_zero_to_nan (denSum df group_cols target_col model k))

/-- The distinct group keys present in the input (`group_by` partitions). -/
def distinctKeys (df : DFrame) (group_cols : List String) : List (List Val) :=
  (df.rows.map (keyOf group_cols)).dedup

/-- The aggregated-and-projected rows, one per distinct group key, before the
final sort: the key values followed by one metric cell per model. -/
def aggRows (df : DFrame) (group_cols : List String) (target_col : String)
    (models : List String) (absolute_error : Bool) :
    List (List Val × List Val) :=
  (distinctKeys df group_cols).map (fun k =>
    (k, models.map (fun m => cellFor df group_cols target_col m absolute_error k)))

/-- Lexicographic comparison of character lists by character code, the
engine's sort order for string keys. -/
def charListLtB : List Char → List Char → Bool
  | [], [] => false
  | [], _ :: _ => true
  | _ :: _, [] => false
  | c :: cs, d :: ds =>
    decide (c.toNat < d.toNat) || (decide (c.toNat = d.toNat) && charListLtB cs ds)

/-- Lexicographic string comparison. -/
def strLtB (a b : String) : Bool := charListLtB a.data b.data

/-- Strict ordering on cells used by `sort`: null first, then numbers in
value order, then NaN (floats sort NaN last), then strings in lexicographic
order.  Distinct constructors other than two numbers or two strings compare
by that fixed rank. -/
def valLtB : Val → Val → Bool
  | .null, .null => false
  | .null, _ => true
  | _, .null => false
  | .num a, .num b => decide (a < b)
  | .num _, _ => true
  | .nan, .nan => false
  | .nan, .num _ => false
  | .nan, .str _ => true
  | .str a, .str b => strLtB a b
  | .str _, _ => false

/-- Lexicographic strict ordering on group-key tuples. -/
def keyLtB : List Val → List Val → Bool
  | [], [] => false
  | [], _ :: _ => true
  | _ :: _, [] => false
  | a :: as, b :: bs => valLtB a b || (decide (a = b) && keyLtB as bs)

/-- Insert one aggregated row into a key-sorted list of rows. -/
def insertRow (r : List Val × List Val) :
    List (List Val × List Val) → List (List Val × List Val)
  | [] => [r]
  | s :: l => if keyLtB r.1 s.1 then r :: s :: l else s :: insertRow r l

/-- Final `sort(*group_cols)` step: sort the aggregated rows ascending by group key. -/
def sortRows : List (List Val × List Val) → List (List Val × List Val)
  | [] => []
  | r :: l => insertRow r (sortRows l)

/-- An output dataframe: the grouping columns, then one column per model, and
one row per group holding the key values and the metric cells. -/
structure ResultFrame where
  groupCols : List String
  models : List String
  rows : List (List Val × List Val)
deriving DecidableEq, Repr

/-- The full column list of a result, grouping columns first. -/
def ResultFrame.allCols (res : ResultFrame) : List String :=
  res.groupCols ++ res.models

/-- The column names referenced by the `select` that builds the derived
numerator/denominator columns: the grouping columns, then for each model the
target column and the model column. -/
def referencedCols (group_cols : List String) (target_col : String)
    (models : List String) : List String :=
  group_cols ++ models.flatMap (fun m => [target_col, m])

/-- Modelled from the spec: the underlying dataframe engine (narwhals, an
external collaborator not under `src/`) raises an explicit error naming the
missing column when a `select` references a column absent from the schema;
a column that is never referenced raises nothing (§6, §7 of the spec). -/
def firstMissing (df : DFrame) (group_cols : List String) (target_col : String)
    (models : List String) : Option String :=
  (referencedCols group_cols target_col models).find?
    (fun c => !(df.columns.contains c))

/-- Source function `_ratio_metric`: resolve the group key, build the masked per-model
numerator/denominator expressions, group-by-sum, divide with the zero guard,
and sort by the grouping columns.  Fails with the missing column name when a
referenced column is absent from the schema. -/
def _ratio_metric (df : DFrame) (models : List String)
    (id_col target_col cutoff_col : String) (absolute_error : Bool) :
    Except String ResultFrame :=
  let group_cols := _get_group_cols df id_col cutoff_col
  match firstMissing df group_cols target_col models with
  | some c => .error c
  | none =>
      .ok ⟨group_cols, models,
        sortRows (aggRows df group_cols target_col models absolute_error)⟩

/-- Public metric `WAPE`: the ratio metric with absolute errors. -/
def WAPE (df : DFrame) (models : List String)
    (id_col : String := "unique_id") (target_col : String := "y")
    (cutoff_col : String := "cutoff") : Except String ResultFrame :=
  _ratio_metric df models id_col target_col cutoff_col true

/-- Public metric `BIAS`: the ratio metric with signed errors. -/
def BIAS (df : DFrame) (models : List String)
    (id_col : String := "unique_id") (target_col : String := "y")
    (cutoff_col : String := "cutoff") : Except String ResultFrame :=
  _ratio_metric df models id_col target_col cutoff_col false

/-- One row of the concrete four-row scenario of the spec. -/
def mkRow (uid : String) (y m1 : Val) : String → Val := fun c =>
  if c = "unique_id" then Val.str uid
  else if c = "y" then y
  else if c = "model1" then m1
  else Val.null

/-- The concrete four-row dataset of the spec: series A and B, targets
[10,20,30,40], model1 predictions [9,18,33,36]. -/
def scenarioDF : DFrame :=
  { columns := ["unique_id", "y", "model1"]
    rows :=
      [ mkRow "A" (Val.num 10) (Val.num 9)
      , mkRow "A" (Val.num 20) (Val.num 18)
      , mkRow "B" (Val.num 30) (Val.num 33)
      , mkRow "B" (Val.num 40) (Val.num 36) ] }

/-- A dataset with a single group whose actuals sum to exactly zero. -/
def zeroDF : DFrame :=
  { columns := ["unique_id", "y", "model1"]
    rows := [mkRow "A" (Val.num 0) (Val.num 5)] }

/-- The result of the metrics on `zeroDF`: the zero denominator yields NaN. -/
def zeroRes : ResultFrame :=
  ⟨["unique_id"], ["model1"], [([Val.str "A"], [Val.nan])]⟩

/-- A dataset whose single model abstains (is null) on every row. -/
def nullPredDF : DFrame :=
  { columns := ["unique_id", "y", "model1"]
    rows := [mkRow "A" (Val.num 10) Val.null] }

/-- A dataset whose schema lacks the default target column `y`. -/
def missingDF : DFrame :=
  { columns := ["unique_id"]
    rows := [mkRow "A" Val.null Val.null] }

/-- One row over two model columns, for the per-model independence claim. -/
def mkRow2 (uid : String) (y m1 m2 : Val) : String → Val := fun c =>
  if c = "unique_id" then Val.str uid
  else if c = "y" then y
  else if c = "model1" then m1
  else if c = "model2" then m2
  else Val.null

/-- Two-model dataset. -/
def twoModelDF : DFrame :=
  { columns := ["unique_id", "y", "model1", "model2"]
    rows := [mkRow2 "A" (Val.num 10) (Val.num 9) (Val.num 7)] }

/-- The same dataset with only the `model2` column changed (to null). -/
def twoModelDF' : DFrame :=
  { columns := ["unique_id", "y", "model1", "model2"]
    rows := [mkRow2 "A" (Val.num 10) (Val.num 9) Val.null] }

/-- A dataset on which every available signed error is non-negative. -/
def nonnegDF : DFrame :=
  { columns := ["unique_id", "y", "model1"]
    rows := [mkRow "A" (Val.num 10) (Val.num 9), mkRow "A" (Val.num 20) Val.null] }

/-- A row whose target cell is null while its prediction is not. -/
def nullTargetRow : String → Val := mkRow "A" Val.null (Val.num 5)

/-- Boolean non-negativity of a cell, used to phrase the hypothesis of the
WAPE-equals-BIAS claim decidably: a numeric cell must be `≥ 0`, a null or
NaN cell is vacuously fine (it is masked or propagates identically). -/
def valNonneg : Val → Bool
  | .num q => decide (0 ≤ q)
  | _ => true

/-- The WAPE result on the scenario dataset. -/
def scenarioWAPERes : ResultFrame :=
  ⟨["unique_id"], ["model1"],
    [([Val.str "A"], [Val.num (1/10)]), ([Val.str "B"], [Val.num (1/10)])]⟩

/-- A one-row base dataset, to be extended with a null-target row. -/
def baseDF : DFrame :=
  { columns := ["unique_id", "y", "model1"]
    rows := [mkRow "A" (Val.num 10) (Val.num 9)] }

/-- The WAPE result on `baseDF` extended with `nullTargetRow`: the extra row
contributes nothing to either sum. -/
def baseExtRes : ResultFrame :=
  ⟨["unique_id"], ["model1"], [([Val.str "A"], [Val.num (1/10)])]⟩

/-- The WAPE result on `twoModelDF`. -/
def twoModelRes : ResultFrame :=
  ⟨["unique_id"], ["model1", "model2"],
    [([Val.str "A"], [Val.num (1/10), Val.num (3/10)])]⟩

/-- The WAPE result on `twoModelDF'`: only the `model2` cell differs. -/
def twoModelRes' : ResultFrame :=
  ⟨["unique_id"], ["model1", "model2"],
    [([Val.str "A"], [Val.num (1/10), Val.nan])]⟩

/-! ### Basic lemmas about cell arithmetic -/

/-- A group sum is always numeric or NaN, never null and never a string. -/
theorem valSum_num_or_nan (l : List Val) :
    (∃ q, valSum l = Val.num q) ∨ valSum l = Val.nan := by
  induction l with
  | nil => exact Or.inl ⟨0, rfl⟩
  | cons v vs ih =>
    rcases ih with ⟨q, hq⟩ | hq
    · cases v with
      | null => exact Or.inl ⟨q, by simp [valSum, valAdd, hq]⟩
      | str s => exact Or.inl ⟨q, by simp [valSum, valAdd, hq]⟩
      | nan => exact Or.inr (by simp [valSum, valAdd, hq])
      | num a => exact Or.inl ⟨a + q, by simp [valSum, valAdd, hq]⟩
    · cases v with
      | null => exact Or.inr (by simp [valSum, valAdd, hq])
      | str s => exact Or.inr (by simp [valSum, valAdd, hq])
      | nan => exact Or.inr (by simp [valSum, valAdd, hq])
      | num a => exact Or.inr (by simp [valSum, valAdd, hq])

/-- A group sum is never the null marker. -/
theorem valSum_ne_null (l : List Val) : valSum l ≠ Val.null := by
  rcases valSum_num_or_nan l with ⟨q, hq⟩ | hq <;> simp [hq]

/-- A null cell contributes nothing to a group sum. -/
theorem valSum_cons_null (l : List Val) : valSum (Val.null :: l) = valSum l := rfl

/-- The group sum of an all-null column is the engine's zero. -/
theorem valSum_all_null (l : List Val) (h : ∀ v ∈ l, v = Val.null) :
    valSum l = Val.num 0 := by
  induction l with
  | nil => rfl
  | cons v vs ih =>
    have hv : v = Val.null := h v (List.mem_cons_self v vs)
    subst hv
    exact (valSum_cons_null vs).trans (ih fun v hv => h v (List.mem_cons_of_mem _ hv))

/-- Dividing a non-null value by NaN yields NaN. -/
theorem valDiv_nan (v : Val) (h : v ≠ Val.null) : valDiv v Val.nan = Val.nan := by
  cases v <;> simp_all [valDiv]

/-- Core zero-guard fact: whenever the aggregated denominator is exactly
zero, the projected cell is NaN — `_zero_to_nan` replaces the zero before
the division happens. -/
theorem cellFor_eq_nan_of_denSum_zero (df : DFrame) (group_cols : List String)
    (target_col model : String) (absolute_error : Bool) (k : List Val)
    (h : denSum df group_cols target_col model k = Val.num 0) :
    cellFor df group_cols target_col model absolute_error k = Val.nan := by
  unfold cellFor
  rw [h]
  have hz : _zero_to_nan (Val.num 0) = Val.nan := rfl
  rw [hz]
  exact valDiv_nan _ (valSum_ne_null _)

/-! ### The cell ordering used by the final sort -/

theorem charListLtB_irrefl (a : List Char) : charListLtB a a = false := by
  induction a with
  | nil => rfl
  | cons c cs ih => simp [charListLtB, ih, Nat.lt_irrefl]

theorem charListLtB_asymm : ∀ {a b : List Char},
    charListLtB a b = true → charListLtB b a = false
  | [], [], h => by simp [charListLtB] at h
  | [], _ :: _, _ => rfl
  | _ :: _, [], h => by simp [charListLtB] at h
  | c :: cs, d :: ds, h => by
    simp only [charListLtB, Bool.or_eq_true, Bool.and_eq_true,
      decide_eq_true_eq] at h
    rcases h with h | ⟨heq, h⟩
    · have h1 : ¬ d.toNat < c.toNat := Nat.lt_asymm h
      have h2 : ¬ d.toNat = c.toNat := fun hh => absurd (hh ▸ h) (Nat.lt_irrefl _)
      simp [charListLtB, h1, h2]
    · have hrec := charListLtB_asymm h
      simp [charListLtB, heq, hrec, Nat.lt_irrefl]

theorem charListLtB_trans : ∀ {a b c : List Char},
    charListLtB a b = true → charListLtB b c = true → charListLtB a c = true
  | [], [], _, hab, _ => by simp [charListLtB] at hab
  | [], _ :: _, [], _, hbc => by simp [charListLtB] at hbc
  | [], _ :: _, _ :: _, _, _ => rfl
  | _ :: _, [], _, hab, _ => by simp [charListLtB] at hab
  | _ :: _, _ :: _, [], _, hbc => by simp [charListLtB] at hbc
  | c :: cs, d :: ds, e :: es, hab, hbc => by
    simp only [charListLtB, Bool.or_eq_true, Bool.and_eq_true,
      decide_eq_true_eq] at hab hbc ⊢
    rcases hab with hab | ⟨hab1, hab2⟩
    · rcases hbc with hbc | ⟨hbc1, hbc2⟩
      · exact Or.inl (Nat.lt_trans hab hbc)
      · exact Or.inl (hbc1 ▸ hab)
    · rcases hbc with hbc | ⟨hbc1, hbc2⟩
      · exact Or.inl (hab1.symm ▸ hbc)
      · exact Or.inr ⟨hab1.trans hbc1, charListLtB_trans hab2 hbc2⟩

theorem charListLtB_total : ∀ {a b : List Char}, a ≠ b →
    charListLtB a b = true ∨ charListLtB b a = true
  | [], [], h => absurd rfl h
  | [], _ :: _, _ => Or.inl rfl
  | _ :: _, [], _ => Or.inr rfl
  | c :: cs, d :: ds, h => by
    by_cases hcd : c = d
    · subst hcd
      have hcs : cs ≠ ds := fun hh => h (by rw [hh])
      rcases charListLtB_total hcs with hlt | hlt
      · exact Or.inl (by simp [charListLtB, hlt])
      · exact Or.inr (by simp [charListLtB, hlt])
    · have hne : c.toNat ≠ d.toNat := fun hh => hcd (Char.ext (UInt32.ext hh))
      rcases Nat.lt_or_ge c.toNat d.toNat with hlt | hge
      · exact Or.inl (by simp [charListLtB, hlt])
      · have hlt : d.toNat < c.toNat :=
          Nat.lt_of_le_of_ne hge (fun hh => hne hh.symm)
        exact Or.inr (by simp [charListLtB, hlt])

theorem strLtB_irrefl (a : String) : strLtB a a = false :=
  charListLtB_irrefl a.data

theorem strLtB_asymm {a b : String} (h : strLtB a b = true) :
    strLtB b a = false := charListLtB_asymm h

theorem strLtB_trans {a b c : String} (hab : strLtB a b = true)
    (hbc : strLtB b c = true) : strLtB a c = true := charListLtB_trans hab hbc

theorem strLtB_total {a b : String} (h : a ≠ b) :
    strLtB a b = true ∨ strLtB b a = true := by
  refine charListLtB_total (fun hh => h ?_)
  cases a
  cases b
  simp_all

theorem valLtB_irrefl (a : Val) : valLtB a a = false := by
  cases a with
  | null => rfl
  | nan => rfl
  | num q => exact decide_eq_false (lt_irrefl q)
  | str s => exact strLtB_irrefl s

theorem valLtB_asymm {a b : Val} (h : valLtB a b = true) : valLtB b a = false := by
  cases a <;> cases b <;> first
    | rfl
    | exact Bool.noConfusion h
    | exact decide_eq_false (asymm (of_decide_eq_true h))
    | exact strLtB_asymm h

theorem valLtB_trans {a b c : Val} (hab : valLtB a b = true)
    (hbc : valLtB b c = true) : valLtB a c = true := by
  cases a <;> cases b <;> cases c <;> first
    | rfl
    | exact Bool.noConfusion hab
    | exact Bool.noConfusion hbc
    | exact decide_eq_true (lt_trans (of_decide_eq_true hab) (of_decide_eq_true hbc))
    | exact strLtB_trans hab hbc

theorem valLtB_total {a b : Val} (h : a ≠ b) :
    valLtB a b = true ∨ valLtB b a = true := by
  cases a <;> cases b <;> first
    | exact Or.inl rfl
    | exact Or.inr rfl
    | exact absurd rfl h
    | exact (lt_or_gt_of_ne (fun hx => h (by rw [hx]))).imp decide_eq_true decide_eq_true
    | exact strLtB_total (fun hx => h (by rw [hx]))

theorem keyLtB_irrefl (a : List Val) : keyLtB a a = false := by
  induction a with
  | nil => rfl
  | cons x xs ih => simp [keyLtB, valLtB_irrefl, ih]

theorem keyLtB_asymm : ∀ {a b : List Val}, keyLtB a b = true → keyLtB b a = false
  | [], [], h => by simp [keyLtB] at h
  | [], _ :: _, _ => rfl
  | _ :: _, [], h => by simp [keyLtB] at h
  | x :: xs, y :: ys, h => by
    simp only [keyLtB, Bool.or_eq_true, Bool.and_eq_true, decide_eq_true_eq] at h
    rcases h with h | ⟨rfl, h⟩
    · have h1 : valLtB y x = false := valLtB_asymm h
      have h2 : y ≠ x := by
        rintro rfl
        simp [valLtB_irrefl] at h
      simp [keyLtB, h1, h2]
    · simp [keyLtB, valLtB_irrefl, keyLtB_asymm h]

theorem keyLtB_trans : ∀ {a b c : List Val},
    keyLtB a b = true → keyLtB b c = true → keyLtB a c = true
  | [], [], _, hab, _ => by simp [keyLtB] at hab
  | [], _ :: _, [], _, hbc => by simp [keyLtB] at hbc
  | [], _ :: _, _ :: _, _, _ => rfl
  | _ :: _, [], _, hab, _ => by simp [keyLtB] at hab
  | _ :: _, _ :: _, [], _, hbc => by simp [keyLtB] at hbc
  | x :: xs, y :: ys, z :: zs, hab, hbc => by
    simp only [keyLtB, Bool.or_eq_true, Bool.and_eq_true, decide_eq_true_eq] at hab hbc ⊢
    rcases hab with hab | ⟨rfl, hab⟩
    · rcases hbc with hbc | ⟨rfl, hbc⟩
      · exact Or.inl (valLtB_trans hab hbc)
      · exact Or.inl hab
    · rcases hbc with hbc | ⟨rfl, hbc⟩
      · exact Or.inl hbc
      · exact Or.inr ⟨rfl, keyLtB_trans hab hbc⟩

theorem keyLtB_total : ∀ {a b : List Val}, a ≠ b →
    keyLtB a b = true ∨ keyLtB b a = true
  | [], [], h => absurd rfl h
  | [], _ :: _, _ => Or.inl rfl
  | _ :: _, [], _ => Or.inr rfl
  | x :: xs, y :: ys, h => by
    by_cases hxy : x = y
    · subst hxy
      have hxs : xs ≠ ys := fun hh => h (by rw [hh])
      rcases keyLtB_total hxs with hlt | hlt
      · exact Or.inl (by simp [keyLtB, hlt])
      · exact Or.inr (by simp [keyLtB, hlt])
    · rcases valLtB_total hxy with hlt | hlt
      · exact Or.inl (by simp [keyLtB, hlt])
      · exact Or.inr (by simp [keyLtB, hlt])

/-! ### Lemmas about the insertion sort used for the final ordering -/

/-- Weak key order between aggregated rows: the right key is not below the
left key. -/
def rowLe (a b : List Val × List Val) : Prop := keyLtB b.1 a.1 = false

theorem insertRow_perm (r : List Val × List Val) :
    ∀ l, List.Perm (insertRow r l) (r :: l)
  | [] => List.Perm.refl _
  | s :: l => by
    unfold insertRow
    by_cases h : keyLtB r.1 s.1 = true
    · rw [if_pos h]
    · rw [if_neg h]
      exact ((insertRow_perm r l).cons s).trans (List.Perm.swap r s l)

theorem sortRows_perm : ∀ l, List.Perm (sortRows l) l
  | [] => List.Perm.refl _
  | r :: l => (insertRow_perm r (sortRows l)).trans ((sortRows_perm l).cons r)

theorem mem_insertRow {x r : List Val × List Val} {l : List (List Val × List Val)}
    (h : x ∈ insertRow r l) : x = r ∨ x ∈ l := by
  have := (insertRow_perm r l).mem_iff.mp h
  simpa using this

theorem insertRow_pairwise (r : List Val × List Val)
    {l : List (List Val × List Val)} (hl : List.Pairwise rowLe l) :
    List.Pairwise rowLe (insertRow r l) := by
  induction l with
  | nil =>
    unfold insertRow
    simp
  | cons s t ih =>
    have hs : ∀ {x}, x ∈ t → rowLe s x := fun hx => List.rel_of_pairwise_cons hl hx
    have ht := hl.of_cons
    unfold insertRow
    by_cases hlt : keyLtB r.1 s.1 = true
    · rw [if_pos hlt]
      refine List.Pairwise.cons ?_ hl
      intro x hx
      rcases List.mem_cons.mp hx with rfl | hx
      · unfold rowLe
        exact keyLtB_asymm hlt
      · have hsx : rowLe s x := hs hx
        unfold rowLe at hsx ⊢
        by_cases hxr : keyLtB x.1 r.1 = true
        · exact absurd (keyLtB_trans hxr hlt) (by rw [hsx]; simp)
        · simpa using hxr
    · rw [if_neg hlt]
      refine List.Pairwise.cons ?_ (ih ht)
      intro x hx
      rcases mem_insertRow hx with rfl | hx
      · unfold rowLe
        simpa using hlt
      · exact hs hx

theorem sortRows_pairwise : ∀ l, List.Pairwise rowLe (sortRows l)
  | [] => List.Pairwise.nil
  | r :: l => insertRow_pairwise r (sortRows_pairwise l)

/-- With pairwise-distinct keys, the weak sortedness of the final sort is in
fact strict: result rows are strictly ascending by group-key tuple. -/
theorem sortRows_strict {l : List (List Val × List Val)}
    (hnd : (l.map Prod.fst).Nodup) :
    List.Pairwise (fun a b => keyLtB a.1 b.1 = true) (sortRows l) := by
  have hperm : List.Perm (sortRows l) l := sortRows_perm l
  have hnd' : ((sortRows l).map Prod.fst).Nodup :=
    (hperm.map Prod.fst).nodup_iff.mpr hnd
  have hne : List.Pairwise (fun a b : List Val × List Val => a.1 ≠ b.1) (sortRows l) :=
    (List.pairwise_map.mp hnd')
  have hle := sortRows_pairwise l
  refine (hle.and hne).imp ?_
  intro a b hh
  rcases hh with ⟨hab, hne'⟩
  rcases keyLtB_total hne' with h | h
  · exact h
  · unfold rowLe at hab
    rw [h] at hab
    exact Bool.noConfusion hab

/-! ### Characterization of a successful metric call -/

/-- Inversion of a successful `_ratio_metric` call: the result is the sorted
aggregation with the resolved grouping columns and the given model list. -/
theorem ratio_metric_ok {df : DFrame} {models : List String}
    {id_col target_col cutoff_col : String} {absolute_error : Bool}
    {res : ResultFrame}
    (h : _ratio_metric df models id_col target_col cutoff_col absolute_error =
      .ok res) :
    res = ⟨_get_group_cols df id_col cutoff_col, models,
      sortRows (aggRows df (_get_group_cols df id_col cutoff_col) target_col
        models absolute_error)⟩ := by
  simp only [_ratio_metric] at h
  cases hfm : firstMissing df (_get_group_cols df id_col cutoff_col) target_col
      models with
  | some c => rw [hfm] at h; cases h
  | none => rw [hfm] at h; cases h; rfl

/-- Index access below the length of a mapped list. -/
theorem getD_map_lt {α β : Type} (f : α → β) (l : List α) {i : ℕ}
    (h : i < l.length) (d : β) : (l.map f).getD i d = f (l.get ⟨i, h⟩) := by
  rw [List.getD_eq_getElem?_getD, List.getElem?_map, List.getElem?_eq_getElem h]
  rfl

/-- Every row of a successful result is the projected aggregation of one
group key that occurs in the input. -/
theorem rows_ok_mem {df : DFrame} {models : List String}
    {id_col target_col cutoff_col : String} {absolute_error : Bool}
    {res : ResultFrame}
    (hok : _ratio_metric df models id_col target_col cutoff_col absolute_error =
      .ok res) :
    ∀ row ∈ res.rows, row.1 ∈ df.rows.map (keyOf (_get_group_cols df id_col cutoff_col)) ∧
      row = (row.1, models.map (fun m =>
        cellFor df (_get_group_cols df id_col cutoff_col) target_col m
          absolute_error row.1)) := by
  intro row hrow
  rw [ratio_metric_ok hok] at hrow
  have hmem : row ∈ aggRows df (_get_group_cols df id_col cutoff_col) target_col
      models absolute_error := (sortRows_perm _).mem_iff.mp hrow
  rcases List.mem_map.mp hmem with ⟨k, hk, hrk⟩
  have hk1 : row.1 = k := by rw [← hrk]
  subst hk1
  refine ⟨List.mem_dedup.mp hk, ?_⟩
  exact hrk.symm

/-- Every group key occurring in the input owns a row of a successful
result, holding exactly the projected aggregated cells. -/
theorem key_mem_rows_ok {df : DFrame} {models : List String}
    {id_col target_col cutoff_col : String} {absolute_error : Bool}
    {res : ResultFrame}
    (hok : _ratio_metric df models id_col target_col cutoff_col absolute_error =
      .ok res)
    {k : List Val}
    (hk : k ∈ df.rows.map (keyOf (_get_group_cols df id_col cutoff_col))) :
    (k, models.map (fun m =>
      cellFor df (_get_group_cols df id_col cutoff_col) target_col m
        absolute_error k)) ∈ res.rows := by
  rw [ratio_metric_ok hok]
  refine (sortRows_perm _).mem_iff.mpr ?_
  exact List.mem_map.mpr ⟨k, List.mem_dedup.mpr hk, rfl⟩

/-- Shared core for the zero-denominator claims: with a zero aggregated
denominator for the model at position `i`, the group's row exists when the
key occurs in the input, and its cell at position `i` is NaN. -/
theorem cell_nan_core {df : DFrame} {models : List String}
    {id_col target_col cutoff_col : String} {absolute_error : Bool}
    {res : ResultFrame}
    (hok : _ratio_metric df models id_col target_col cutoff_col absolute_error =
      .ok res)
    {i : ℕ} (hi : i < models.length) {k : List Val}
    (hden : denSum df (_get_group_cols df id_col cutoff_col) target_col
      (models.get ⟨i, hi⟩) k = Val.num 0) :
    (k ∈ df.rows.map (keyOf (_get_group_cols df id_col cutoff_col)) →
      ∃ row ∈ res.rows, row.1 = k) ∧
    ∀ row ∈ res.rows, row.1 = k → row.2.getD i Val.null = Val.nan := by
  constructor
  · intro hk
    exact ⟨_, key_mem_rows_ok hok hk, rfl⟩
  · intro row hrow hkey
    have hchar := (rows_ok_mem hok row hrow).2
    have hcells : row.2 = models.map (fun m =>
        cellFor df (_get_group_cols df id_col cutoff_col) target_col m
          absolute_error k) := by
      rw [← hkey]
      rw [hchar]
    rw [hcells, getD_map_lt _ _ hi]
    exact cellFor_eq_nan_of_denSum_zero _ _ _ _ _ _ hden

/-! ### Claim theorems -/

/-- C1 (counterexample): on the spec's concrete four-row dataset, BIAS for
group B is `(−3 + 4)/70 = 1/70`, not the claimed `−0.1`: the spec's own
scenario miscomputes the signed error of the fourth row (`40 − 36 = 4`,
not `−4`). -/
theorem C1_counterexample :
    BIAS scenarioDF ["model1"] =
      Except.ok ⟨["unique_id"], ["model1"],
        [([Val.str "A"], [Val.num (1/10)]), ([Val.str "B"], [Val.num (1/70)])]⟩ ∧
    Val.num ((1 : ℚ)/70) ≠ Val.num (-(1/10)) := by
  constructor
  · simp [BIAS, _ratio_metric, firstMissing, referencedCols, _get_group_cols,
      scenarioDF, mkRow, aggRows, distinctKeys, keyOf, cellFor, numSum, denSum,
      numExpr, denExpr, valSub, valAbs, valSum, valAdd, _zero_to_nan, valDiv,
      sortRows, insertRow, keyLtB, valLtB, strLtB, charListLtB, List.filter]
    norm_num
  · simp only [ne_eq, Val.num.injEq]
    norm_num

/-- C1 (amended): on the concrete four-row dataset, WAPE is 0.1 for both
groups, BIAS is 0.1 for group A and 1/70 for group B. -/
theorem C1_amended_scenario :
    WAPE scenarioDF ["model1"] =
      Except.ok ⟨["unique_id"], ["model1"],
        [([Val.str "A"], [Val.num (1/10)]), ([Val.str "B"], [Val.num (1/10)])]⟩ ∧
    BIAS scenarioDF ["model1"] =
      Except.ok ⟨["unique_id"], ["model1"],
        [([Val.str "A"], [Val.num (1/10)]), ([Val.str "B"], [Val.num (1/70)])]⟩ := by
  constructor <;>
  · simp [WAPE, BIAS, _ratio_metric, firstMissing, referencedCols,
      _get_group_cols, scenarioDF, mkRow, aggRows, distinctKeys, keyOf, cellFor,
      numSum, denSum, numExpr, denExpr, valSub, valAbs, valSum, valAdd,
      _zero_to_nan, valDiv, sortRows, insertRow, keyLtB, valLtB, strLtB,
      charListLtB, List.filter]
    norm_num

/-- C2: whenever a group's aggregated denominator (the sum of masked
actuals) is exactly zero for the model at position `i`, that model's cell in
that group's output row is the NaN undefined marker — the zero is replaced
by `_zero_to_nan` before the division — and the call as a whole returned a
result rather than an error. -/
theorem C2_zero_denominator_undefined (df : DFrame) (models : List String)
    (id_col target_col cutoff_col : String) (absolute_error : Bool)
    (res : ResultFrame)
    (hok : _ratio_metric df models id_col target_col cutoff_col absolute_error =
      .ok res)
    (i : ℕ) (hi : i < models.length) (k : List Val)
    (hden : denSum df (_get_group_cols df id_col cutoff_col) target_col
      (models.get ⟨i, hi⟩) k = Val.num 0) :
    (k ∈ df.rows.map (keyOf (_get_group_cols df id_col cutoff_col)) →
      ∃ row ∈ res.rows, row.1 = k) ∧
    ∀ row ∈ res.rows, row.1 = k → row.2.getD i Val.null = Val.nan :=
  cell_nan_core hok hi hden

/-- C2 witness: on the concrete one-row dataset with actual 0, the
aggregated denominator is zero and the output cell is NaN. -/
theorem C2_zero_denominator_witness :
    denSum zeroDF (_get_group_cols zeroDF "unique_id" "cutoff") "y" "model1"
      [Val.str "A"] = Val.num 0 ∧
    ([Val.str "A"], [Val.nan]).2.getD 0 Val.null = Val.nan := by
  have hden : denSum zeroDF (_get_group_cols zeroDF "unique_id" "cutoff") "y"
      "model1" [Val.str "A"] = Val.num 0 := by
    simp [denSum, _get_group_cols, zeroDF, keyOf, mkRow, denExpr, valSum,
      valAdd, List.filter]
  have hok : _ratio_metric zeroDF ["model1"] "unique_id" "y" "cutoff" true =
      Except.ok zeroRes := by
    simp [_ratio_metric, firstMissing, referencedCols, _get_group_cols, zeroDF,
      mkRow, aggRows, distinctKeys, keyOf, cellFor, numSum, denSum, numExpr,
      denExpr, valSub, valAbs, valSum, valAdd, _zero_to_nan, valDiv, sortRows,
      insertRow, zeroRes]
  exact ⟨hden,
    (C2_zero_denominator_undefined zeroDF ["model1"] "unique_id" "y" "cutoff"
      true zeroRes hok 0 (by decide) [Val.str "A"] hden).2
      ([Val.str "A"], [Val.nan]) (by simp [zeroRes]) rfl⟩

/-- C3: if the model at position `i` has a null prediction on every row of
the group with key `k`, then that group's output row exists (whenever the
key occurs in the input) and the model's cell in it is the NaN undefined
marker — in particular it is not zero — while the call returned a result
in-band rather than raising. -/
theorem C3_all_null_predictions_undefined (df : DFrame) (models : List String)
    (id_col target_col cutoff_col : String) (absolute_error : Bool)
    (res : ResultFrame)
    (hok : _ratio_metric df models id_col target_col cutoff_col absolute_error =
      .ok res)
    (i : ℕ) (hi : i < models.length) (k : List Val)
    (hnull : ∀ r ∈ df.rows,
      keyOf (_get_group_cols df id_col cutoff_col) r = k →
        r (models.get ⟨i, hi⟩) = Val.null) :
    (k ∈ df.rows.map (keyOf (_get_group_cols df id_col cutoff_col)) →
      ∃ row ∈ res.rows, row.1 = k) ∧
    ∀ row ∈ res.rows, row.1 = k →
      row.2.getD i Val.null = Val.nan ∧ row.2.getD i Val.null ≠ Val.num 0 := by
  have hden : denSum df (_get_group_cols df id_col cutoff_col) target_col
      (models.get ⟨i, hi⟩) k = Val.num 0 := by
    unfold denSum
    refine valSum_all_null _ ?_
    intro v hv
    rcases List.mem_map.mp hv with ⟨r, hr, hrv⟩
    have hrmem : r ∈ df.rows := List.mem_of_mem_filter hr
    have hrkey : keyOf (_get_group_cols df id_col cutoff_col) r = k := by
      have := List.of_mem_filter hr
      simpa using this
    have hrnull : r (models.get ⟨i, hi⟩) = Val.null := hnull r hrmem hrkey
    rw [← hrv]
    unfold denExpr
    rw [if_pos hrnull]
  have hcore := cell_nan_core hok hi hden
  refine ⟨hcore.1, ?_⟩
  intro row hrow hkey
  have hnan := hcore.2 row hrow hkey
  exact ⟨hnan, by rw [hnan]; exact fun hh => Val.noConfusion hh⟩

/-- C3 witness: on the concrete dataset whose single model abstains on every
row, the cell is NaN and is not zero. -/
theorem C3_all_null_predictions_witness :
    ([Val.str "A"], [Val.nan]).2.getD 0 Val.null = Val.nan ∧
    ([Val.str "A"], [Val.nan]).2.getD 0 Val.null ≠ Val.num 0 := by
  have hok : _ratio_metric nullPredDF ["model1"] "unique_id" "y" "cutoff" true =
      Except.ok ⟨["unique_id"], ["model1"], [([Val.str "A"], [Val.nan])]⟩ := by
    simp [_ratio_metric, firstMissing, referencedCols, _get_group_cols,
      nullPredDF, mkRow, aggRows, distinctKeys, keyOf, cellFor, numSum, denSum,
      numExpr, denExpr, valSub, valAbs, valSum, valAdd, _zero_to_nan, valDiv,
      sortRows, insertRow]
  have hnull : ∀ r ∈ nullPredDF.rows,
      keyOf (_get_group_cols nullPredDF "unique_id" "cutoff") r = [Val.str "A"] →
        r ((["model1"] : List String).get ⟨0, by decide⟩) = Val.null := by
    intro r hr _
    have hr' : r = mkRow "A" (Val.num 10) Val.null := List.mem_singleton.mp hr
    rw [hr']
    rfl
  exact (C3_all_null_predictions_undefined nullPredDF ["model1"] "unique_id" "y"
    "cutoff" true ⟨["unique_id"], ["model1"], [([Val.str "A"], [Val.nan])]⟩
    hok 0 (by decide) [Val.str "A"] hnull).2
    ([Val.str "A"], [Val.nan]) (by simp) rfl

/-- C5: the grouping key is `[cutoff_col, id_col]` exactly when `cutoff_col`
is among the dataset's columns and `[id_col]` otherwise; it depends only on
the column set (two datasets with equal schemas resolve identically, with no
data scan), it never fails, and a successful metric call uses exactly this
key as its grouping columns. -/
theorem C5_group_key_resolution (df df' : DFrame) (id_col cutoff_col : String)
    (hcols : df.columns = df'.columns) :
    _get_group_cols df id_col cutoff_col =
      (if cutoff_col ∈ df.columns then [cutoff_col, id_col] else [id_col]) ∧
    _get_group_cols df id_col cutoff_col = _get_group_cols df' id_col cutoff_col ∧
    ∀ models target_col absolute_error res,
      _ratio_metric df models id_col target_col cutoff_col absolute_error =
        .ok res →
      res.groupCols = _get_group_cols df id_col cutoff_col := by
  refine ⟨rfl, ?_, ?_⟩
  · unfold _get_group_cols
    rw [hcols]
  · intro models target_col absolute_error res hok
    rw [ratio_metric_ok hok]

/-- C5 witness: group-key resolution on the concrete scenario dataset, whose
schema has no cutoff column. -/
theorem C5_group_key_witness :
    _get_group_cols scenarioDF "unique_id" "cutoff" =
      (if "cutoff" ∈ scenarioDF.columns then ["cutoff", "unique_id"]
        else ["unique_id"]) ∧
    _get_group_cols scenarioDF "unique_id" "cutoff" = ["unique_id"] :=
  ⟨(C5_group_key_resolution scenarioDF scenarioDF "unique_id" "cutoff" rfl).1,
    by decide⟩

/-- Shared shape facts about a successful call: the output keys are exactly
the distinct input keys (no drop, no duplicate), one row each, strictly
ascending. -/
theorem result_keys_spec {df : DFrame} {models : List String}
    {id_col target_col cutoff_col : String} {absolute_error : Bool}
    {res : ResultFrame}
    (hok : _ratio_metric df models id_col target_col cutoff_col absolute_error =
      .ok res) :
    (∀ k, k ∈ res.rows.map Prod.fst ↔
      k ∈ df.rows.map (keyOf (_get_group_cols df id_col cutoff_col))) ∧
    (res.rows.map Prod.fst).Nodup ∧
    res.rows.length =
      (distinctKeys df (_get_group_cols df id_col cutoff_col)).length ∧
    List.Pairwise (fun a b => keyLtB a b = true) (res.rows.map Prod.fst) := by
  have hres := ratio_metric_ok hok
  subst hres
  have hperm : List.Perm
      (sortRows (aggRows df (_get_group_cols df id_col cutoff_col) target_col
        models absolute_error))
      (aggRows df (_get_group_cols df id_col cutoff_col) target_col models
        absolute_error) := sortRows_perm _
  have hmapfst : ∀ ks : List (List Val), (ks.map (fun k =>
      (k, models.map (fun m => cellFor df (_get_group_cols df id_col cutoff_col)
        target_col m absolute_error k)))).map Prod.fst = ks := by
    intro ks
    induction ks with
    | nil => rfl
    | cons a l ih => simp [ih]
  have hkeys : (aggRows df (_get_group_cols df id_col cutoff_col) target_col
      models absolute_error).map Prod.fst =
      distinctKeys df (_get_group_cols df id_col cutoff_col) := by
    unfold aggRows
    exact hmapfst _
  have hnd : ((aggRows df (_get_group_cols df id_col cutoff_col) target_col
      models absolute_error).map Prod.fst).Nodup := by
    rw [hkeys]
    exact List.nodup_dedup _
  refine ⟨?_, ?_, ?_, ?_⟩
  · intro k
    rw [(hperm.map Prod.fst).mem_iff, hkeys]
    exact List.mem_dedup
  · exact (hperm.map Prod.fst).nodup_iff.mpr hnd
  · rw [hperm.length_eq]
    rw [← hkeys, List.length_map]
  · have hstrict := sortRows_strict (l := aggRows df
      (_get_group_cols df id_col cutoff_col) target_col models absolute_error)
      hnd
    exact List.pairwise_map.mpr hstrict

/-- C6: a successful call has exactly one output row per distinct group key
of the input (no key dropped or duplicated), its columns are the grouping
columns followed by the model columns in argument order, and its rows are
strictly ascending by group-key tuple. -/
theorem C6_output_shape (df : DFrame) (models : List String)
    (id_col target_col cutoff_col : String) (absolute_error : Bool)
    (res : ResultFrame)
    (hok : _ratio_metric df models id_col target_col cutoff_col absolute_error =
      .ok res) :
    (∀ k, k ∈ res.rows.map Prod.fst ↔
      k ∈ df.rows.map (keyOf (_get_group_cols df id_col cutoff_col))) ∧
    (res.rows.map Prod.fst).Nodup ∧
    res.rows.length =
      (distinctKeys df (_get_group_cols df id_col cutoff_col)).length ∧
    res.allCols = _get_group_cols df id_col cutoff_col ++ models ∧
    List.Pairwise (fun a b => keyLtB a b = true) (res.rows.map Prod.fst) := by
  have h := result_keys_spec hok
  have hcols : res.allCols = _get_group_cols df id_col cutoff_col ++ models := by
    rw [ratio_metric_ok hok]
    rfl
  exact ⟨h.1, h.2.1, h.2.2.1, hcols, h.2.2.2⟩

/-- C6 witness: output shape on the concrete scenario dataset. -/
theorem C6_output_shape_witness :
    scenarioWAPERes.allCols = ["unique_id", "model1"] ∧
    (scenarioWAPERes.rows.map Prod.fst).Nodup ∧
    List.Pairwise (fun a b => keyLtB a b = true)
      (scenarioWAPERes.rows.map Prod.fst) := by
  have hok : _ratio_metric scenarioDF ["model1"] "unique_id" "y" "cutoff" true =
      Except.ok scenarioWAPERes := by
    simp [_ratio_metric, firstMissing, referencedCols, _get_group_cols,
      scenarioDF, mkRow, aggRows, distinctKeys, keyOf, cellFor, numSum, denSum,
      numExpr, denExpr, valSub, valAbs, valSum, valAdd, _zero_to_nan, valDiv,
      sortRows, insertRow, keyLtB, valLtB, strLtB, charListLtB, List.filter,
      scenarioWAPERes]
    norm_num
  have h := C6_output_shape scenarioDF ["model1"] "unique_id" "y" "cutoff" true
    scenarioWAPERes hok
  exact ⟨h.2.2.2.1, h.2.1, h.2.2.2.2⟩

/-- C7: with an empty model list and the grouping columns present in the
schema, both WAPE and BIAS succeed with the same result: grouping columns
only, zero metric columns, one row per distinct group key. -/
theorem C7_empty_models (df : DFrame) (id_col target_col cutoff_col : String)
    (hid : id_col ∈ df.columns) :
    ∃ res, WAPE df [] id_col target_col cutoff_col = .ok res ∧
      BIAS df [] id_col target_col cutoff_col = .ok res ∧
      res.allCols = _get_group_cols df id_col cutoff_col ∧
      res.models = [] ∧
      (∀ k, k ∈ res.rows.map Prod.fst ↔
        k ∈ df.rows.map (keyOf (_get_group_cols df id_col cutoff_col))) ∧
      (res.rows.map Prod.fst).Nodup := by
  have hsub : ∀ c ∈ _get_group_cols df id_col cutoff_col, c ∈ df.columns := by
    intro c hc
    unfold _get_group_cols at hc
    by_cases hcut : cutoff_col ∈ df.columns
    · rw [if_pos hcut] at hc
      simp only [List.mem_cons, List.not_mem_nil, or_false] at hc
      rcases hc with rfl | rfl
      · exact hcut
      · exact hid
    · rw [if_neg hcut] at hc
      simp only [List.mem_cons, List.not_mem_nil, or_false] at hc
      rw [hc]
      exact hid
  have hfm : firstMissing df (_get_group_cols df id_col cutoff_col) target_col
      [] = none := by
    unfold firstMissing referencedCols
    rw [List.find?_eq_none]
    intro c hc
    simp only [List.flatMap_nil, List.append_nil] at hc
    simp [hsub c hc]
  have hwape : WAPE df [] id_col target_col cutoff_col =
      .ok ⟨_get_group_cols df id_col cutoff_col, [],
        sortRows (aggRows df (_get_group_cols df id_col cutoff_col) target_col
          [] true)⟩ := by
    unfold WAPE
    simp only [_ratio_metric, hfm]
  have hagg : aggRows df (_get_group_cols df id_col cutoff_col) target_col
      [] false = aggRows df (_get_group_cols df id_col cutoff_col) target_col
      [] true := by
    simp [aggRows]
  have hbias : BIAS df [] id_col target_col cutoff_col =
      .ok ⟨_get_group_cols df id_col cutoff_col, [],
        sortRows (aggRows df (_get_group_cols df id_col cutoff_col) target_col
          [] true)⟩ := by
    unfold BIAS
    simp only [_ratio_metric, hfm, hagg]
  have hspec := result_keys_spec (show _ratio_metric df [] id_col target_col
    cutoff_col true = .ok _ from hwape)
  refine ⟨_, hwape, hbias, ?_, rfl, hspec.1, hspec.2.1⟩
  simp [ResultFrame.allCols]

/-- C7 witness: empty model list on the concrete scenario dataset. -/
theorem C7_empty_models_witness :
    "unique_id" ∈ scenarioDF.columns ∧
    ∃ res, WAPE scenarioDF [] "unique_id" "y" "cutoff" = .ok res ∧
      BIAS scenarioDF [] "unique_id" "y" "cutoff" = .ok res ∧
      res.allCols = _get_group_cols scenarioDF "unique_id" "cutoff" ∧
      res.models = [] ∧
      (∀ k, k ∈ res.rows.map Prod.fst ↔
        k ∈ scenarioDF.rows.map
          (keyOf (_get_group_cols scenarioDF "unique_id" "cutoff"))) ∧
      (res.rows.map Prod.fst).Nodup :=
  ⟨by decide,
    C7_empty_models scenarioDF "unique_id" "y" "cutoff" (by decide)⟩

/-- C8 (counterexample): with an empty model list the target column is never
referenced, so a dataset lacking the target column is processed silently and
successfully — refuting the claim's unconditional immediate failure. -/
theorem C8_counterexample :
    "y" ∉ missingDF.columns ∧
    WAPE missingDF [] "unique_id" "y" "cutoff" =
      Except.ok ⟨["unique_id"], [], [([Val.str "A"], [])]⟩ := by
  constructor
  · decide
  · simp [WAPE, _ratio_metric, firstMissing, referencedCols, _get_group_cols,
      missingDF, mkRow, aggRows, distinctKeys, keyOf, sortRows, insertRow,
      List.filter]

/-- C8 (amended): when the model list is non-empty and the target column is
missing, or some model column is missing (the grouping columns being
present), the call fails with an error naming a missing required column. -/
theorem C8_missing_column_error (df : DFrame) (models : List String)
    (id_col target_col cutoff_col : String) (absolute_error : Bool)
    (hg : ∀ c ∈ _get_group_cols df id_col cutoff_col, c ∈ df.columns)
    (hmiss : (models ≠ [] ∧ target_col ∉ df.columns) ∨
      ∃ m ∈ models, m ∉ df.columns) :
    ∃ c, _ratio_metric df models id_col target_col cutoff_col absolute_error =
        .error c ∧
      c ∉ df.columns ∧ (c = target_col ∨ c ∈ models) := by
  have hex : ∃ x ∈ referencedCols (_get_group_cols df id_col cutoff_col)
      target_col models, !(df.columns.contains x) = true := by
    rcases hmiss with ⟨hne, htm⟩ | ⟨m, hm, hmc⟩
    · rcases models with _ | ⟨m0, ms⟩
      · exact absurd rfl hne
      · refine ⟨target_col, ?_, by simp [htm]⟩
        unfold referencedCols
        refine List.mem_append_right _ ?_
        exact List.mem_flatMap.mpr ⟨m0, List.mem_cons_self _ _, by simp⟩
    · refine ⟨m, ?_, by simp [hmc]⟩
      unfold referencedCols
      refine List.mem_append_right _ ?_
      exact List.mem_flatMap.mpr ⟨m, hm, by simp⟩
  have hsome : ∃ c, firstMissing df (_get_group_cols df id_col cutoff_col)
      target_col models = some c := by
    unfold firstMissing
    rcases hex with ⟨x, hx, hpx⟩
    cases hfind : (referencedCols (_get_group_cols df id_col cutoff_col)
        target_col models).find? (fun c => !(df.columns.contains c)) with
    | some c => exact ⟨c, rfl⟩
    | none => exact absurd hpx (by simpa using List.find?_eq_none.mp hfind x hx)
  rcases hsome with ⟨c, hc⟩
  have hcmem : c ∈ referencedCols (_get_group_cols df id_col cutoff_col)
      target_col models := List.mem_of_find?_eq_some hc
  have hcnot : c ∉ df.columns := by
    have := List.find?_some hc
    simpa using this
  have hcsrc : c = target_col ∨ c ∈ models := by
    unfold referencedCols at hcmem
    rcases List.mem_append.mp hcmem with hcg | hcf
    · exact absurd (hg c hcg) hcnot
    · rcases List.mem_flatMap.mp hcf with ⟨m, hm, hcm⟩
      simp only [List.mem_cons, List.not_mem_nil, or_false] at hcm
      rcases hcm with rfl | rfl
      · exact Or.inl rfl
      · exact Or.inr hm
  refine ⟨c, ?_, hcnot, hcsrc⟩
  simp only [_ratio_metric, hc]

/-- C8 (amended) witness: a dataset lacking the target column, called with a
non-empty model list, fails naming a missing required column. -/
theorem C8_missing_column_error_witness :
    ∃ c, _ratio_metric missingDF ["model1"] "unique_id" "y" "cutoff" true =
        .error c ∧
      c ∉ missingDF.columns ∧ (c = "y" ∨ c ∈ (["model1"] : List String)) :=
  C8_missing_column_error missingDF ["model1"] "unique_id" "y" "cutoff" true
    (by decide) (Or.inl ⟨by simp, by decide⟩)

/-- C9: a row whose target cell is null has null numerator and denominator
expressions for every model (the null propagates through the subtraction and
the masked actual), so prepending it to a dataset changes no aggregated
numerator or denominator sum; yet its group key is present in the output of
a successful call on the extended dataset. -/
theorem C9_null_target_row (df : DFrame) (r : String → Val)
    (models : List String) (id_col target_col cutoff_col : String)
    (absolute_error : Bool) (m : String)
    (htarget : r target_col = Val.null) :
    numExpr target_col m absolute_error r = Val.null ∧
    denExpr target_col m r = Val.null ∧
    (∀ k,
      numSum ⟨df.columns, r :: df.rows⟩ (_get_group_cols df id_col cutoff_col)
          target_col m absolute_error k =
        numSum df (_get_group_cols df id_col cutoff_col) target_col m
          absolute_error k ∧
      denSum ⟨df.columns, r :: df.rows⟩ (_get_group_cols df id_col cutoff_col)
          target_col m k =
        denSum df (_get_group_cols df id_col cutoff_col) target_col m k) ∧
    ∀ res, _ratio_metric ⟨df.columns, r :: df.rows⟩ models id_col target_col
        cutoff_col absolute_error = .ok res →
      keyOf (_get_group_cols df id_col cutoff_col) r ∈ res.rows.map Prod.fst := by
  have hnum : numExpr target_col m absolute_error r = Val.null := by
    unfold numExpr
    by_cases hm : r m = Val.null
    · rw [if_pos hm]
    · rw [if_neg hm]
      have hsub : valSub (r target_col) (r m) = Val.null := by
        rw [htarget]
        cases r m <;> rfl
      rw [hsub]
      cases absolute_error <;> rfl
  have hden : denExpr target_col m r = Val.null := by
    unfold denExpr
    by_cases hm : r m = Val.null
    · rw [if_pos hm]
    · rw [if_neg hm, htarget]
  refine ⟨hnum, hden, ?_, ?_⟩
  · intro k
    constructor
    · unfold numSum
      rw [List.filter_cons]
      by_cases hk : keyOf (_get_group_cols df id_col cutoff_col) r = k
      · rw [if_pos (by simp [hk]), List.map_cons, hnum]
        exact valSum_cons_null _
      · rw [if_neg (by simp [hk])]
    · unfold denSum
      rw [List.filter_cons]
      by_cases hk : keyOf (_get_group_cols df id_col cutoff_col) r = k
      · rw [if_pos (by simp [hk]), List.map_cons, hden]
        exact valSum_cons_null _
      · rw [if_neg (by simp [hk])]
  · intro res hok
    have hspec := (result_keys_spec hok).1
    refine (hspec _).mpr ?_
    exact List.mem_map.mpr ⟨r, List.mem_cons_self _ _, rfl⟩

/-- C9 witness: prepending the concrete null-target row to the one-row base
dataset leaves the sums unchanged and its key appears in the output. -/
theorem C9_null_target_row_witness :
    numExpr "y" "model1" true nullTargetRow = Val.null ∧
    denExpr "y" "model1" nullTargetRow = Val.null ∧
    numSum ⟨baseDF.columns, nullTargetRow :: baseDF.rows⟩
        (_get_group_cols baseDF "unique_id" "cutoff") "y" "model1" true
        [Val.str "A"] =
      numSum baseDF (_get_group_cols baseDF "unique_id" "cutoff") "y" "model1"
        true [Val.str "A"] ∧
    keyOf (_get_group_cols baseDF "unique_id" "cutoff") nullTargetRow ∈
      baseExtRes.rows.map Prod.fst := by
  have h := C9_null_target_row baseDF nullTargetRow ["model1"] "unique_id" "y"
    "cutoff" true "model1" rfl
  have hok : _ratio_metric ⟨baseDF.columns, nullTargetRow :: baseDF.rows⟩
      ["model1"] "unique_id" "y" "cutoff" true = Except.ok baseExtRes := by
    simp [_ratio_metric, firstMissing, referencedCols, _get_group_cols, baseDF,
      nullTargetRow, mkRow, aggRows, distinctKeys, keyOf, cellFor, numSum,
      denSum, numExpr, denExpr, valSub, valAbs, valSum, valAdd, _zero_to_nan,
      valDiv, sortRows, insertRow, baseExtRes, List.filter]
    norm_num
  exact ⟨h.1, h.2.1, (h.2.2.1 [Val.str "A"]).1, h.2.2.2 baseExtRes hok⟩

/-! ### Congruence machinery for the per-model independence claim -/

/-- Mapping a pointwise-related pair of lists with functions that agree on
related elements yields equal lists. -/
theorem forall2_map_eq {α β : Type} {R : α → α → Prop} (f g : α → β)
    (hf : ∀ a b, R a b → f a = g b) :
    ∀ {l l' : List α}, List.Forall₂ R l l' → l.map f = l'.map g := by
  intro l l' h
  induction h with
  | nil => rfl
  | @cons a b t t' hab htt ih =>
    rw [List.map_cons, List.map_cons, hf a b hab, ih]

/-- Filtering a pointwise-related pair of lists with predicates that agree on
related elements, then mapping with functions that agree, yields equal
lists. -/
theorem forall2_filter_map {α β : Type} {R : α → α → Prop}
    (p q : α → Bool) (f g : α → β)
    (hp : ∀ a b, R a b → p a = q b)
    (hf : ∀ a b, R a b → f a = g b) :
    ∀ {l l' : List α}, List.Forall₂ R l l' →
      (l.filter p).map f = (l'.filter q).map g := by
  intro l l' h
  induction h with
  | nil => rfl
  | @cons a b t t' hab htt ih =>
    rw [List.filter_cons, List.filter_cons]
    by_cases hpa : p a = true
    · rw [if_pos hpa, if_pos (by rw [← hp a b hab]; exact hpa)]
      rw [List.map_cons, List.map_cons, ih, hf a b hab]
    · rw [if_neg hpa, if_neg (by rw [← hp a b hab]; exact hpa)]
      exact ih

/-- Two maps over the same list are pointwise related when the functions are
pointwise related. -/
theorem forall2_map_same {α β : Type} {S : β → β → Prop} (f g : α → β)
    (h : ∀ a, S (f a) (g a)) :
    ∀ l : List α, List.Forall₂ S (l.map f) (l.map g)
  | [] => List.Forall₂.nil
  | a :: l => List.Forall₂.cons (h a) (forall2_map_same f g h l)

/-- Insertion respects any row relation that preserves keys. -/
theorem insertRow_rel {R : List Val × List Val → List Val × List Val → Prop}
    (hR : ∀ a b, R a b → a.1 = b.1)
    {r r' : List Val × List Val} (hrr : R r r') :
    ∀ {l l' : List (List Val × List Val)}, List.Forall₂ R l l' →
      List.Forall₂ R (insertRow r l) (insertRow r' l') := by
  intro l l' hll
  induction hll with
  | nil => exact List.Forall₂.cons hrr List.Forall₂.nil
  | @cons s s' t t' hss htt ih =>
    have hkey : r.1 = r'.1 := hR _ _ hrr
    have hskey : s.1 = s'.1 := hR _ _ hss
    unfold insertRow
    by_cases hlt : keyLtB r.1 s.1 = true
    · rw [if_pos hlt, if_pos (by rw [← hkey, ← hskey]; exact hlt)]
      exact List.Forall₂.cons hrr (List.Forall₂.cons hss htt)
    · rw [if_neg hlt, if_neg (by rw [← hkey, ← hskey]; exact hlt)]
      exact List.Forall₂.cons hss ih

/-- Sorting respects any row relation that preserves keys: related inputs
sort to related outputs because all comparisons look only at keys. -/
theorem sortRows_rel {R : List Val × List Val → List Val × List Val → Prop}
    (hR : ∀ a b, R a b → a.1 = b.1) :
    ∀ {l l' : List (List Val × List Val)}, List.Forall₂ R l l' →
      List.Forall₂ R (sortRows l) (sortRows l') := by
  intro l l' h
  induction h with
  | nil => exact List.Forall₂.nil
  | cons hss _ ih => exact insertRow_rel hR hss ih

/-- Inversion of a failing `_ratio_metric` call. -/
theorem ratio_metric_error_iff {df : DFrame} {models : List String}
    {id_col target_col cutoff_col : String} {absolute_error : Bool}
    {c : String} :
    _ratio_metric df models id_col target_col cutoff_col absolute_error =
        .error c ↔
      firstMissing df (_get_group_cols df id_col cutoff_col) target_col
        models = some c := by
  simp only [_ratio_metric]
  cases hfm : firstMissing df (_get_group_cols df id_col cutoff_col)
      target_col models with
  | some d => simp
  | none => simp

/-- A successful call has every referenced column present in the schema. -/
theorem referenced_present {df : DFrame} {models : List String}
    {id_col target_col cutoff_col : String} {absolute_error : Bool}
    {res : ResultFrame}
    (hok : _ratio_metric df models id_col target_col cutoff_col absolute_error =
      .ok res) :
    ∀ c ∈ referencedCols (_get_group_cols df id_col cutoff_col) target_col
      models, c ∈ df.columns := by
  intro c hc
  simp only [_ratio_metric] at hok
  cases hfm : firstMissing df (_get_group_cols df id_col cutoff_col)
      target_col models with
  | some d => rw [hfm] at hok; cases hok
  | none =>
    unfold firstMissing at hfm
    have := List.find?_eq_none.mp hfm c hc
    simpa using this

/-- C4: the metric column of one model is unaffected by the values (null or
not) of a different model's column.  Two datasets with the same schema whose
rows agree on every column except `m'` produce identical error behaviour,
and on success identical group keys and identical cells at any model
position `i` whose name differs from `m'` (given `m'` is neither the target
column nor a grouping column). -/
theorem C4_model_independence (df df' : DFrame) (models : List String)
    (id_col target_col cutoff_col : String) (absolute_error : Bool)
    (m' : String) (i : ℕ) (hi : i < models.length)
    (hcols : df'.columns = df.columns)
    (hrows : List.Forall₂
      (fun r r' => ∀ c ∈ df.columns, c ≠ m' → r c = r' c) df.rows df'.rows)
    (hm : models.get ⟨i, hi⟩ ≠ m')
    (hmt : m' ≠ target_col)
    (hmg : m' ∉ _get_group_cols df id_col cutoff_col) :
    (∀ c, _ratio_metric df models id_col target_col cutoff_col absolute_error =
        .error c ↔
      _ratio_metric df' models id_col target_col cutoff_col absolute_error =
        .error c) ∧
    ∀ res res',
      _ratio_metric df models id_col target_col cutoff_col absolute_error =
        .ok res →
      _ratio_metric df' models id_col target_col cutoff_col absolute_error =
        .ok res' →
      res.rows.map (fun row => (row.1, row.2.getD i Val.null)) =
        res'.rows.map (fun row => (row.1, row.2.getD i Val.null)) := by
  have hg' : _get_group_cols df' id_col cutoff_col =
      _get_group_cols df id_col cutoff_col := by
    unfold _get_group_cols
    rw [hcols]
  have hfmeq : firstMissing df' (_get_group_cols df' id_col cutoff_col)
      target_col models =
      firstMissing df (_get_group_cols df id_col cutoff_col) target_col
        models := by
    unfold firstMissing
    rw [hg', hcols]
  constructor
  · intro c
    rw [ratio_metric_error_iff, ratio_metric_error_iff, hfmeq]
  · intro res res' hok hok'
    have hpres := referenced_present hok
    have hm_mem : models.get ⟨i, hi⟩ ∈ models := List.get_mem models i hi
    have hm_col : models.get ⟨i, hi⟩ ∈ df.columns := by
      refine hpres _ ?_
      unfold referencedCols
      exact List.mem_append_right _
        (List.mem_flatMap.mpr ⟨_, hm_mem, by simp⟩)
    have ht_col : target_col ∈ df.columns := by
      refine hpres _ ?_
      unfold referencedCols
      exact List.mem_append_right _
        (List.mem_flatMap.mpr ⟨_, hm_mem, by simp⟩)
    have hg_col : ∀ c ∈ _get_group_cols df id_col cutoff_col,
        c ∈ df.columns := by
      intro c hc
      refine hpres c ?_
      unfold referencedCols
      exact List.mem_append_left _ hc
    -- per-row congruences
    have hkeyr : ∀ a b, (∀ c ∈ df.columns, c ≠ m' → a c = b c) →
        keyOf (_get_group_cols df id_col cutoff_col) a =
          keyOf (_get_group_cols df id_col cutoff_col) b := by
      intro a b hab
      unfold keyOf
      refine List.map_congr_left ?_
      intro c hc
      exact hab c (hg_col c hc) (fun hh => hmg (hh ▸ hc))
    have hnumr : ∀ a b, (∀ c ∈ df.columns, c ≠ m' → a c = b c) →
        numExpr target_col (models.get ⟨i, hi⟩) absolute_error a =
          numExpr target_col (models.get ⟨i, hi⟩) absolute_error b := by
      intro a b hab
      have h1 : a (models.get ⟨i, hi⟩) = b (models.get ⟨i, hi⟩) :=
        hab _ hm_col hm
      have h2 : a target_col = b target_col :=
        hab _ ht_col (fun hh => hmt hh.symm)
      unfold numExpr
      rw [h1, h2]
    have hdenr : ∀ a b, (∀ c ∈ df.columns, c ≠ m' → a c = b c) →
        denExpr target_col (models.get ⟨i, hi⟩) a =
          denExpr target_col (models.get ⟨i, hi⟩) b := by
      intro a b hab
      have h1 : a (models.get ⟨i, hi⟩) = b (models.get ⟨i, hi⟩) :=
        hab _ hm_col hm
      have h2 : a target_col = b target_col :=
        hab _ ht_col (fun hh => hmt hh.symm)
      unfold denExpr
      rw [h1, h2]
    -- keys and aggregated sums coincide
    have hkeysmap : df.rows.map (keyOf (_get_group_cols df id_col cutoff_col)) =
        df'.rows.map (keyOf (_get_group_cols df id_col cutoff_col)) :=
      forall2_map_eq _ _ hkeyr hrows
    have hdk : distinctKeys df' (_get_group_cols df id_col cutoff_col) =
        distinctKeys df (_get_group_cols df id_col cutoff_col) := by
      unfold distinctKeys
      rw [hkeysmap]
    have hcell : ∀ k,
        cellFor df (_get_group_cols df id_col cutoff_col) target_col
          (models.get ⟨i, hi⟩) absolute_error k =
        cellFor df' (_get_group_cols df id_col cutoff_col) target_col
          (models.get ⟨i, hi⟩) absolute_error k := by
      intro k
      have hnum : numSum df (_get_group_cols df id_col cutoff_col) target_col
          (models.get ⟨i, hi⟩) absolute_error k =
          numSum df' (_get_group_cols df id_col cutoff_col) target_col
            (models.get ⟨i, hi⟩) absolute_error k := by
        unfold numSum
        exact congrArg valSum (forall2_filter_map _ _ _ _
          (fun a b hab => by rw [hkeyr a b hab]) hnumr hrows)
      have hden : denSum df (_get_group_cols df id_col cutoff_col) target_col
          (models.get ⟨i, hi⟩) k =
          denSum df' (_get_group_cols df id_col cutoff_col) target_col
            (models.get ⟨i, hi⟩) k := by
        unfold denSum
        exact congrArg valSum (forall2_filter_map _ _ _ _
          (fun a b hab => by rw [hkeyr a b hab]) hdenr hrows)
      unfold cellFor
      rw [hnum, hden]
    -- the aggregated rows are related at position i
    have hrel : List.Forall₂ (fun a b : List Val × List Val =>
        a.1 = b.1 ∧ a.2.getD i Val.null = b.2.getD i Val.null)
        (aggRows df (_get_group_cols df id_col cutoff_col) target_col models
          absolute_error)
        (aggRows df' (_get_group_cols df' id_col cutoff_col) target_col models
          absolute_error) := by
      rw [ratio_metric_ok hok] at hok
      unfold aggRows
      rw [hg', hdk]
      refine forall2_map_same _ _ ?_ _
      intro k
      refine ⟨rfl, ?_⟩
      rw [getD_map_lt _ _ hi, getD_map_lt _ _ hi, hcell k]
    have hsorted := sortRows_rel (fun a b h => h.1) hrel
    have hfinal := forall2_map_eq
      (fun row : List Val × List Val => (row.1, row.2.getD i Val.null))
      (fun row : List Val × List Val => (row.1, row.2.getD i Val.null))
      (fun a b h => by
        show (a.1, a.2.getD i Val.null) = (b.1, b.2.getD i Val.null)
        rw [h.1, h.2]) hsorted
    rw [ratio_metric_ok hok, ratio_metric_ok hok']
    exact hfinal

/-- C4 witness: changing only the `model2` column (to null) leaves the
`model1` output column unchanged on a concrete two-model dataset. -/
theorem C4_model_independence_witness :
    twoModelRes.rows.map (fun row => (row.1, row.2.getD 0 Val.null)) =
      twoModelRes'.rows.map (fun row => (row.1, row.2.getD 0 Val.null)) := by
  have hrows : List.Forall₂
      (fun r r' => ∀ c ∈ twoModelDF.columns, c ≠ "model2" → r c = r' c)
      twoModelDF.rows twoModelDF'.rows := by
    refine List.Forall₂.cons ?_ List.Forall₂.nil
    intro c hc hne
    simp only [twoModelDF, List.mem_cons, List.not_mem_nil, or_false] at hc
    rcases hc with rfl | rfl | rfl | rfl
    · rfl
    · rfl
    · rfl
    · exact absurd rfl hne
  have hok : _ratio_metric twoModelDF ["model1", "model2"] "unique_id" "y"
      "cutoff" true = Except.ok twoModelRes := by
    simp [_ratio_metric, firstMissing, referencedCols, _get_group_cols,
      twoModelDF, mkRow2, aggRows, distinctKeys, keyOf, cellFor, numSum,
      denSum, numExpr, denExpr, valSub, valAbs, valSum, valAdd, _zero_to_nan,
      valDiv, sortRows, insertRow, twoModelRes, List.filter]
    norm_num
  have hok' : _ratio_metric twoModelDF' ["model1", "model2"] "unique_id" "y"
      "cutoff" true = Except.ok twoModelRes' := by
    simp [_ratio_metric, firstMissing, referencedCols, _get_group_cols,
      twoModelDF', mkRow2, aggRows, distinctKeys, keyOf, cellFor, numSum,
      denSum, numExpr, denExpr, valSub, valAbs, valSum, valAdd, _zero_to_nan,
      valDiv, sortRows, insertRow, twoModelRes', List.filter]
    norm_num
  exact (C4_model_independence twoModelDF twoModelDF' ["model1", "model2"]
    "unique_id" "y" "cutoff" true "model2" 0 (by decide) rfl hrows
    (by decide) (by decide) (by decide)).2 twoModelRes twoModelRes' hok hok'

/-- C10: when every available signed error is non-negative (for each row and
model with a non-null prediction, `target − prediction ≥ 0`), WAPE and BIAS
return identical results: the absolute-value step is the identity there and
the two public functions are otherwise the same engine call. -/
theorem C10_wape_eq_bias (df : DFrame) (models : List String)
    (id_col target_col cutoff_col : String)
    (h : ∀ r ∈ df.rows, ∀ m ∈ models, r m ≠ Val.null →
      valNonneg (valSub (r target_col) (r m)) = true) :
    WAPE df models id_col target_col cutoff_col =
      BIAS df models id_col target_col cutoff_col := by
  have hnum : ∀ r ∈ df.rows, ∀ m ∈ models,
      numExpr target_col m true r = numExpr target_col m false r := by
    intro r hr m hm
    unfold numExpr
    by_cases hnull : r m = Val.null
    · rw [if_pos hnull, if_pos hnull]
    · rw [if_neg hnull, if_neg hnull]
      simp only [if_true]
      simp only [Bool.false_eq_true, if_false]
      have hnn := h r hr m hm hnull
      cases hsub : valSub (r target_col) (r m) with
      | null => rfl
      | nan => rfl
      | str s => rfl
      | num q =>
        rw [hsub] at hnn
        have hq : (0 : ℚ) ≤ q := of_decide_eq_true hnn
        show Val.num |q| = Val.num q
        rw [abs_of_nonneg hq]
  have hagg : aggRows df (_get_group_cols df id_col cutoff_col) target_col
      models true =
      aggRows df (_get_group_cols df id_col cutoff_col) target_col models
        false := by
    unfold aggRows
    refine List.map_congr_left ?_
    intro k _
    refine congrArg _ ?_
    refine List.map_congr_left ?_
    intro m hm
    unfold cellFor
    have hns : numSum df (_get_group_cols df id_col cutoff_col) target_col m
        true k =
        numSum df (_get_group_cols df id_col cutoff_col) target_col m false
          k := by
      unfold numSum
      refine congrArg valSum ?_
      refine List.map_congr_left ?_
      intro r hr
      exact hnum r (List.mem_of_mem_filter hr) m hm
    rw [hns]
  unfold WAPE BIAS
  simp only [_ratio_metric, hagg]

/-- C10 witness: on a dataset whose only available signed error is `+1`,
WAPE and BIAS coincide. -/
theorem C10_wape_eq_bias_witness :
    WAPE nonnegDF ["model1"] = BIAS nonnegDF ["model1"] := by
  refine C10_wape_eq_bias nonnegDF ["model1"] "unique_id" "y" "cutoff" ?_
  intro r hr m hm hnull
  simp only [nonnegDF, List.mem_cons, List.not_mem_nil, or_false] at hr
  simp only [List.mem_singleton] at hm
  subst hm
  rcases hr with rfl | rfl
  · simp [mkRow, valSub, valNonneg]
    norm_num
  · exact absurd rfl hnull

end MoreLosses
